import Mathlib

/-!
Verification of the request-governance and adaptive-polling engine of the
openclaw-moltbook monitor: the deduplication tracker, backoff handler,
rate limiter, robots.txt rule evaluation and the adaptive polling
scheduler.  Python floats are modelled by rationals, timestamps are
rationals (seconds), Python dicts are association lists with unique keys,
and the random jitter factor is passed as an explicit parameter.
-/

namespace Monitor

/-- Lookup in an association list, first matching key wins.  Models
Python dict lookup (`d[k]` / `d.get(k)`); the operations below keep keys
unique, so first-match and dict semantics coincide. -/
def dictGet {β : Type} (k : String) : List (String × β) → Option β
  | [] => none
  | e :: es => if e.1 = k then some e.2 else dictGet k es

/-- Python `int()` applied to a rational: truncation toward zero. -/
def pyInt (q : ℚ) : ℤ :=
  if q < 0 then -(Int.floor (-q)) else Int.floor q

theorem pyInt_eq_floor {q : ℚ} (h : 0 ≤ q) : pyInt q = Int.floor q := by
  unfold pyInt
  rw [if_neg (not_lt.mpr h)]

/-! ## Deduplication tracker (src/monitor/deduplication.py) -/

/-- Record of a previously seen post (`SeenPost`). -/
structure SeenPost where
  post_id : String
  content_hash : String
  first_seen_at : ℚ
  last_seen_at : ℚ
  seen_count : ℕ
deriving DecidableEq

/-- The `DeduplicationTracker` state: TTL in seconds, the identity index
`by_id` (post id -> record) and the fingerprint index `by_hash`
(content hash -> post id). -/
structure DeduplicationTracker where
  ttl : ℚ
  by_id : List (String × SeenPost)
  by_hash : List (String × String)
deriving DecidableEq

namespace DeduplicationTracker

/-- The in-place update `mark_seen` performs on an existing record:
refresh `last_seen_at` and increment `seen_count`. -/
def touchRecord (now : ℚ) (r : SeenPost) : SeenPost :=
  { r with last_seen_at := now, seen_count := r.seen_count + 1 }

/-- `DeduplicationTracker.mark_seen`: if the post id is already present,
update the record's `last_seen_at` and increment `seen_count`; otherwise
create a fresh record and point the fingerprint index at the id (a dict
assignment, so an existing entry for the same hash is overwritten).
`now` is the value of `datetime.now` at the call. -/
def mark_seen (t : DeduplicationTracker) (post_id content_hash : String)
    (now : ℚ) : DeduplicationTracker :=
  match dictGet post_id t.by_id with
  | some _ =>
      { t with by_id := t.by_id.map (fun e =>
          if e.1 = post_id then (e.1, touchRecord now e.2) else e) }
  | none =>
      let record : SeenPost :=
        { post_id := post_id, content_hash := content_hash,
          first_seen_at := now, last_seen_at := now, seen_count := 1 }
      { t with
          by_id := (post_id, record) :: t.by_id,
          by_hash := (content_hash, post_id) ::
            t.by_hash.filter (fun e => e.1 ≠ content_hash) }

/-- `DeduplicationTracker.cleanup_expired`: remove every record whose
`last_seen_at` is older than `now - ttl` from `by_id`, and pop from
`by_hash` the key `record.content_hash` of every removed record. -/
def cleanup_expired (t : DeduplicationTracker) (now : ℚ) : DeduplicationTracker :=
  let cutoff := now - t.ttl
  let expiredHashes :=
    (t.by_id.filter (fun e => e.2.last_seen_at < cutoff)).map
      (fun e => e.2.content_hash)
  { t with
      by_id := t.by_id.filter (fun e => ¬ e.2.last_seen_at < cutoff),
      by_hash := t.by_hash.filter (fun e => ¬ e.1 ∈ expiredHashes) }

/-- `DeduplicationTracker.has_hash`. -/
def has_hash (t : DeduplicationTracker) (content_hash : String) : Bool :=
  (dictGet content_hash t.by_hash).isSome

/-- `DeduplicationTracker.is_duplicate`. -/
def is_duplicate (t : DeduplicationTracker) (post_id : String)
    (content_hash : Option String) : Bool :=
  (dictGet post_id t.by_id).isSome ||
    (match content_hash with
     | some h => (dictGet h t.by_hash).isSome
     | none => false)

end DeduplicationTracker

/-- One tracker operation, with the wall-clock instant it happens at. -/
inductive DedupOp where
  | markSeen (post_id content_hash : String) (now : ℚ)
  | cleanupExpired (now : ℚ)
deriving DecidableEq

/-- Apply one operation to a tracker state. -/
def DedupOp.apply (t : DeduplicationTracker) : DedupOp → DeduplicationTracker
  | .markSeen p h n => t.mark_seen p h n
  | .cleanupExpired n => t.cleanup_expired n

/-- The tracker with the given TTL and no records. -/
def emptyTracker (ttl : ℚ) : DeduplicationTracker :=
  { ttl := ttl, by_id := [], by_hash := [] }

/-- Run a sequence of tracker operations from the empty tracker. -/
def runDedup (ttl : ℚ) (ops : List DedupOp) : DeduplicationTracker :=
  ops.foldl DedupOp.apply (emptyTracker ttl)

/-- Every record reachable from the fingerprint index is also stored in
the identity index, and its stored fingerprint is the index key. -/
def hashIndexSound (t : DeduplicationTracker) : Prop :=
  ∀ h p, dictGet h t.by_hash = some p →
    ∃ r, dictGet p t.by_id = some r ∧ r.content_hash = h

/-- Every record stored in the identity index is reachable from the
fingerprint index via its stored content fingerprint. -/
def idIndexCovered (t : DeduplicationTracker) : Prop :=
  ∀ p r, dictGet p t.by_id = some r →
    dictGet r.content_hash t.by_hash = some p

/-- No two `markSeen` operations in the sequence pair the same
fingerprint with two different identities. -/
def consistentFingerprints (ops : List DedupOp) : Prop :=
  ∀ p h n p2 h2 n2, DedupOp.markSeen p h n ∈ ops →
    DedupOp.markSeen p2 h2 n2 ∈ ops → h = h2 → p = p2

/-! ## Backoff handler (src/monitor/backoff.py) -/

/-- `ErrorType`: classification of request failures. -/
inductive ErrorType where
  | rateLimited
  | serverError
  | clientError
  | timeout
  | connection
  | unknown
deriving DecidableEq

/-- `BackoffConfig` with the source defaults. -/
structure BackoffConfig where
  base_delay : ℚ := 1
  max_exponent : ℕ := 8
  max_delay : ℚ := 300
  jitter_min : ℚ := 4/5
  jitter_max : ℚ := 6/5
  timeout_multiplier : ℚ := 2
deriving DecidableEq

/-- `BackoffState`: per-endpoint error bookkeeping. -/
structure BackoffState where
  error_count : ℕ := 0
  last_error_at : Option ℚ := none
  last_error_type : Option ErrorType := none
  retry_after : Option ℚ := none
  consecutive_successes : ℕ := 0
deriving DecidableEq

namespace BackoffState

/-- `BackoffState.record_error`: bump the error count, stamp the error,
reset the success streak, and set the explicit retry-after instant when
the caller supplied a duration (else clear it). -/
def record_error (s : BackoffState) (error_type : ErrorType)
    (retry_after_seconds : Option ℚ) (now : ℚ) : BackoffState :=
  { error_count := s.error_count + 1,
    last_error_at := some now,
    last_error_type := some error_type,
    retry_after := retry_after_seconds.map (fun ra => now + ra),
    consecutive_successes := 0 }

/-- `BackoffState.record_success`: bump the success streak; once it
reaches 3, reset the error count and clear the error classification and
the explicit retry-after. -/
def record_success (s : BackoffState) : BackoffState :=
  if s.consecutive_successes + 1 ≥ 3 then
    { s with consecutive_successes := s.consecutive_successes + 1,
             error_count := 0, last_error_type := none, retry_after := none }
  else
    { s with consecutive_successes := s.consecutive_successes + 1 }

end BackoffState

/-- `BackoffHandler.calculate_delay` for an endpoint whose state is `s`.
The uniform random jitter factor drawn by `_apply_jitter` is passed
explicitly as `jitter`. -/
def calculate_delay (cfg : BackoffConfig) (s : BackoffState)
    (error_type : ErrorType) (retry_after_seconds : Option ℚ)
    (jitter : ℚ) : ℚ :=
  if error_type = ErrorType.clientError then 0
  else
    let base :=
      if error_type = ErrorType.timeout then
        cfg.base_delay * cfg.timeout_multiplier * s.error_count
      else
        cfg.base_delay * 2 ^ (min s.error_count cfg.max_exponent)
    let unjittered := min (base * jitter) cfg.max_delay
    match retry_after_seconds with
    | some ra => if 0 < ra then min ra cfg.max_delay else unjittered
    | none => unjittered

/-- `BackoffHandler.should_retry` for an endpoint whose state is `s`. -/
def should_retry (cfg : BackoffConfig) (s : BackoffState)
    (error_type : ErrorType) : Bool :=
  if error_type = ErrorType.clientError then false
  else if s.error_count ≥ cfg.max_exponent then false
  else true

/-- `classify_http_error`. -/
def classify_http_error (status_code : ℤ) : ErrorType :=
  if status_code = 429 then ErrorType.rateLimited
  else if 400 ≤ status_code ∧ status_code < 500 then ErrorType.clientError
  else if 500 ≤ status_code ∧ status_code < 600 then ErrorType.serverError
  else ErrorType.unknown

/-! ## Rate limiter (src/monitor/rate_limiter.py) -/

/-- `RequestBudget` categories. -/
inductive RequestBudget where
  | newPosts
  | trending
  | comments
  | agents
  | reserve
deriving DecidableEq

/-- `BUDGET_ALLOCATION`. -/
def budgetAllocation : RequestBudget → ℚ
  | .newPosts => 2/5
  | .trending => 1/5
  | .comments => 1/5
  | .agents => 1/10
  | .reserve => 1/10

/-- `RateLimitConfig` with the source defaults; window sizes in seconds. -/
structure RateLimitConfig where
  requests_per_minute : ℤ := 100
  requests_per_hour : ℤ := 5000
  requests_per_day : ℤ := 50000
  warning_threshold : ℚ := 4/5
  minute_window : ℚ := 60
  hour_window : ℚ := 3600
  day_window : ℚ := 86400
deriving DecidableEq

/-- `RateLimitState`: last rate-limit values reported by API headers. -/
structure RateLimitState where
  limit : Option ℤ := none
  remaining : Option ℤ := none
  reset_at : Option ℚ := none
  last_updated : Option ℚ := none
deriving DecidableEq

/-- The `RateLimiter` state: three deques of request timestamps, the
API-reported state, and per-category minute usage counts. -/
structure RateLimiter where
  config : RateLimitConfig := {}
  minute_requests : List ℚ := []
  hour_requests : List ℚ := []
  day_requests : List ℚ := []
  api_state : RateLimitState := {}
  budget_usage : RequestBudget → ℕ := fun _ => 0

namespace RateLimiter

/-- `_cleanup_old_requests` on one deque: pop from the left while the
oldest timestamp is strictly below the cutoff. -/
def cleanupWindow (l : List ℚ) (cutoff : ℚ) : List ℚ :=
  l.dropWhile (fun ts => decide (ts < cutoff))

/-- The minute deque after cleanup at instant `now`. -/
def minuteClean (rl : RateLimiter) (now : ℚ) : List ℚ :=
  cleanupWindow rl.minute_requests (now - rl.config.minute_window)

/-- The hour deque after cleanup at instant `now`. -/
def hourClean (rl : RateLimiter) (now : ℚ) : List ℚ :=
  cleanupWindow rl.hour_requests (now - rl.config.hour_window)

/-- The day deque after cleanup at instant `now`. -/
def dayClean (rl : RateLimiter) (now : ℚ) : List ℚ :=
  cleanupWindow rl.day_requests (now - rl.config.day_window)

/-- The API-reported-state test used by `can_request`: remaining known
and exhausted, with a reset instant still in the future. -/
def apiBlocks (rl : RateLimiter) (now : ℚ) : Bool :=
  match rl.api_state.remaining, rl.api_state.reset_at with
  | some rem, some reset => decide (rem ≤ 0) && decide (now < reset)
  | _, _ => false

/-- `RateLimiter.can_request` at instant `now` (the same instant serves
`time.time()` and `datetime.now`). -/
def can_request (rl : RateLimiter) (now : ℚ)
    (budget : Option RequestBudget) : Bool :=
  let minute_count := (rl.minuteClean now).length
  let hour_count := (rl.hourClean now).length
  let day_count := (rl.dayClean now).length
  if (minute_count : ℤ) ≥ rl.config.requests_per_minute then false
  else if (hour_count : ℤ) ≥ rl.config.requests_per_hour then false
  else if (day_count : ℤ) ≥ rl.config.requests_per_day then false
  else if rl.apiBlocks now then false
  else
    match budget with
    | none => true
    | some b =>
        let allocation := budgetAllocation b
        let max_for_budget := pyInt (rl.config.requests_per_minute * allocation)
        if (rl.budget_usage b : ℤ) ≥ max_for_budget then
          let reserve_remaining :=
            pyInt (rl.config.requests_per_minute *
              budgetAllocation RequestBudget.reserve) -
            (rl.budget_usage RequestBudget.reserve : ℤ)
          if reserve_remaining ≤ 0 then false else true
        else true

/-- `RateLimiter.record_request`. -/
def record_request (rl : RateLimiter) (now : ℚ) (budget : RequestBudget) :
    RateLimiter :=
  { rl with
      minute_requests := rl.minute_requests ++ [now],
      hour_requests := rl.hour_requests ++ [now],
      day_requests := rl.day_requests ++ [now],
      budget_usage := fun b =>
        if b = budget then rl.budget_usage b + 1 else rl.budget_usage b }

/-- Delay until the oldest entry of the cleaned minute deque exits the
minute window (`oldest + window - now`, with `oldest = now` when empty). -/
def minuteWait (rl : RateLimiter) (now : ℚ) : ℚ :=
  ((rl.minuteClean now).head?.getD now) + rl.config.minute_window - now

/-- Delay until the oldest entry of the cleaned hour deque exits the
hour window. -/
def hourWait (rl : RateLimiter) (now : ℚ) : ℚ :=
  ((rl.hourClean now).head?.getD now) + rl.config.hour_window - now

/-- Delay until the oldest entry of the cleaned day deque exits the
day window. -/
def dayWait (rl : RateLimiter) (now : ℚ) : ℚ :=
  ((rl.dayClean now).head?.getD now) + rl.config.day_window - now

/-- The minute window is at its hard limit. -/
def minuteSaturated (rl : RateLimiter) (now : ℚ) : Prop :=
  ((rl.minuteClean now).length : ℤ) ≥ rl.config.requests_per_minute

/-- The hour window is at its hard limit. -/
def hourSaturated (rl : RateLimiter) (now : ℚ) : Prop :=
  ((rl.hourClean now).length : ℤ) ≥ rl.config.requests_per_hour

/-- The day window is at its hard limit. -/
def daySaturated (rl : RateLimiter) (now : ℚ) : Prop :=
  ((rl.dayClean now).length : ℤ) ≥ rl.config.requests_per_day

instance (rl : RateLimiter) (now : ℚ) : Decidable (rl.minuteSaturated now) :=
  inferInstanceAs (Decidable (rl.config.requests_per_minute ≤ ((rl.minuteClean now).length : ℤ)))

instance (rl : RateLimiter) (now : ℚ) : Decidable (rl.hourSaturated now) :=
  inferInstanceAs (Decidable (rl.config.requests_per_hour ≤ ((rl.hourClean now).length : ℤ)))

instance (rl : RateLimiter) (now : ℚ) : Decidable (rl.daySaturated now) :=
  inferInstanceAs (Decidable (rl.config.requests_per_day ≤ ((rl.dayClean now).length : ℤ)))

/-- `RateLimiter.wait_time` at instant `now`: the translation of the
check-and-return chain of the source (a saturated window whose oldest
entry yields a positive wait returns that wait; otherwise fall through
to the next window, then to the API-reported reset instant; else 0). -/
def wait_time (rl : RateLimiter) (now : ℚ) : ℚ :=
  if rl.minuteSaturated now ∧ 0 < rl.minuteWait now then rl.minuteWait now
  else if rl.hourSaturated now ∧ 0 < rl.hourWait now then rl.hourWait now
  else if rl.daySaturated now ∧ 0 < rl.dayWait now then rl.dayWait now
  else
    match rl.api_state.remaining, rl.api_state.reset_at with
    | some rem, some reset =>
        if rem ≤ 0 ∧ 0 < reset - now then reset - now else 0
    | _, _ => 0

end RateLimiter

/-! ## robots.txt rule evaluation (src/monitor/robots.py)

`RobotsRule.matches` escapes the rule path, turns each `*` into `.*`,
and either anchors the pattern at the end (when the rule path ends in
`$`) or matches it as a prefix via `re.match`.  The embedding matches
the rule path directly as a glob: `*` matches any character sequence.
(`.` in the compiled pattern matches any character except a newline;
the embedding treats all characters uniformly, which coincides with the
source on newline-free paths and patterns.) -/

/-- Glob matching with explicit fuel (every recursive call shrinks the
combined length of pattern and string, so `length ps + length s + 1`
fuel always suffices); structural recursion on the fuel keeps the
function kernel-reducible. -/
def globMatchF : ℕ → List Char → List Char → Bool
  | 0, _, _ => false
  | _ + 1, [], s => s.isEmpty
  | fuel + 1, '*' :: ps, s =>
      globMatchF fuel ps s ||
        (match s with
         | [] => false
         | _ :: s2 => globMatchF fuel ('*' :: ps) s2)
  | _ + 1, _ :: _, [] => false
  | fuel + 1, p :: ps, c :: s => p = c && globMatchF fuel ps s

/-- Glob matching: the pattern (where `*` matches any sequence of
characters) against the whole string. -/
def globMatch (ps s : List Char) : Bool :=
  globMatchF (ps.length + s.length + 1) ps s

/-- A single robots.txt rule (`RobotsRule`). -/
structure RobotsRule where
  path : String
  allow : Bool
deriving DecidableEq

/-- `RobotsRule.matches`: with a trailing `$` the rest of the rule path
must match the whole request path; otherwise the rule path must match a
prefix of the request path (modelled by appending a trailing `*`). -/
def RobotsRule.matches (rule : RobotsRule) (p : String) : Bool :=
  let cs := rule.path.toList
  if cs.getLast? = some '$' then globMatch cs.dropLast p.toList
  else globMatch (cs ++ ['*']) p.toList

/-- Parsed directives for one user-agent (`RobotsDirectives`). -/
structure RobotsDirectives where
  user_agent : String
  rules : List RobotsRule
  crawl_delay : Option ℚ := none
  sitemaps : List String := []

/-- The first-match-wins loop of `RobotsDirectives.is_allowed`. -/
def rulesDecision : List RobotsRule → String → Bool
  | [], _ => true
  | r :: rs, p => if r.matches p then r.allow else rulesDecision rs p

/-- `RobotsDirectives.is_allowed`: walk the rules in declaration order,
the first matching rule decides; a path matching no rule is allowed. -/
def RobotsDirectives.is_allowed (d : RobotsDirectives) (p : String) : Bool :=
  rulesDecision d.rules p

/-! ## Adaptive polling scheduler (src/monitor/scheduler.py) -/

/-- `PollingInterval` configuration, in seconds. -/
structure PollingInterval where
  default : ℚ
  minimum : ℚ
  maximum : ℚ
deriving DecidableEq

/-- `EndpointType`. -/
inductive EndpointType where
  | newPosts
  | hotPosts
  | topPosts
  | risingPosts
  | submolts
  | comments
  | agents
deriving DecidableEq

/-- `DEFAULT_INTERVALS`: the on-demand endpoint types (`comments` and
`agents`) have no entry. -/
def defaultIntervals : EndpointType → Option PollingInterval
  | .newPosts => some { default := 5 * 60, minimum := 60, maximum := 30 * 60 }
  | .hotPosts => some { default := 15 * 60, minimum := 5 * 60, maximum := 3600 }
  | .topPosts => some { default := 3600, minimum := 15 * 60, maximum := 6 * 3600 }
  | .risingPosts => some { default := 10 * 60, minimum := 2 * 60, maximum := 30 * 60 }
  | .submolts => some { default := 6 * 3600, minimum := 3600, maximum := 24 * 3600 }
  | .comments => none
  | .agents => none

/-- `ActivityTracker`: sliding-window samples of (timestamp, count). -/
structure ActivityTracker where
  window_size : ℚ := 3600
  samples : List (ℚ × ℤ) := []

namespace ActivityTracker

/-- `_cleanup_old_samples`: keep samples strictly newer than
`now - window_size`. -/
def cleanSamples (tr : ActivityTracker) (now : ℚ) : List (ℚ × ℤ) :=
  tr.samples.filter (fun s => decide (now - tr.window_size < s.1))

/-- `ActivityTracker.get_rate`: total count over the span in minutes
between the first and last retained samples (the bare total when the
span is not positive, `0` when no samples remain). -/
def get_rate (tr : ActivityTracker) (now : ℚ) : ℚ :=
  match tr.cleanSamples now with
  | [] => 0
  | first :: rest =>
      let samples := first :: rest
      let total : ℤ := (samples.map Prod.snd).sum
      let time_span := ((samples.getLast (by simp)).1 - first.1) / 60
      if time_span ≤ 0 then (total : ℚ) else (total : ℚ) / time_span

/-- `ActivityTracker.is_high_activity`. -/
def is_high_activity (tr : ActivityTracker) (now : ℚ) (threshold : ℚ := 10) :
    Bool :=
  decide (threshold < tr.get_rate now)

/-- `ActivityTracker.is_low_activity`. -/
def is_low_activity (tr : ActivityTracker) (now : ℚ) (threshold : ℚ := 1) :
    Bool :=
  decide (tr.get_rate now < threshold)

/-- `ActivityTracker.is_spiking`: with at least 3 retained samples,
compare the newest sample's count against `multiplier` times the
baseline `max (historical rate) 10`, where the historical rate is taken
over all but the newest sample. -/
def is_spiking (tr : ActivityTracker) (now : ℚ) (multiplier : ℚ := 3) :
    Bool :=
  let samples := tr.cleanSamples now
  if samples.length < 3 then false
  else
    match samples.dropLast with
    | [] => false
    | first :: rest =>
        let historical := first :: rest
        let historical_total : ℤ := (historical.map Prod.snd).sum
        let historical_span :=
          ((historical.getLast (by simp)).1 - first.1) / 60
        if historical_span ≤ 0 then false
        else
          let historical_rate := (historical_total : ℚ) / historical_span
          let recent_count := ((samples.getLast?).getD (0, 0)).2
          let baseline := max historical_rate 10
          decide (baseline * multiplier < (recent_count : ℚ))

end ActivityTracker

/-- The body of `PollingScheduler._get_adaptive_interval` once the
category's `PollingInterval` configuration has been found. -/
def adaptiveIntervalFor (tr : ActivityTracker) (now : ℚ)
    (config : PollingInterval) : ℚ :=
  if tr.is_spiking now then config.minimum
  else if tr.is_high_activity now then max (config.default * (1/2)) config.minimum
  else if tr.is_low_activity now then min (config.default * 2) config.maximum
  else config.default

/-- `PollingScheduler._get_adaptive_interval`: endpoint types without a
configured interval fall back to 5 minutes. -/
def get_adaptive_interval (tr : ActivityTracker) (now : ℚ)
    (endpoint_type : EndpointType) : ℚ :=
  match defaultIntervals endpoint_type with
  | none => 5 * 60
  | some config => adaptiveIntervalFor tr now config

/-! ## Theorems for the claims -/

/-- C4: for every endpoint state, `calculate_delay` with error type
ClientError returns exactly 0 and `should_retry` returns false,
regardless of any retry-after value; and for every other error type a
supplied retry-after of 30 seconds makes `calculate_delay` return
exactly `min 30 max_delay`, independent of the jitter factor and
overriding the exponential/linear formula. -/
theorem C4_client_error_and_retry_after (cfg : BackoffConfig)
    (s : BackoffState) (ra : Option ℚ) (jitter : ℚ) :
    calculate_delay cfg s ErrorType.clientError ra jitter = 0
    ∧ should_retry cfg s ErrorType.clientError = false
    ∧ ∀ et, et ≠ ErrorType.clientError →
        calculate_delay cfg s et (some 30) jitter = min 30 cfg.max_delay := by
  refine ⟨rfl, rfl, fun et het => ?_⟩
  unfold calculate_delay
  rw [if_neg het]
  norm_num

/-- C4 witness: the theorem instantiated at the default configuration,
the fresh endpoint state, and error type ServerError. -/
theorem C4_witness :
    calculate_delay {} {} ErrorType.clientError none 1 = 0
    ∧ should_retry {} {} ErrorType.clientError = false
    ∧ calculate_delay {} {} ErrorType.serverError (some 30) 1 =
        min 30 (BackoffConfig.max_delay {}) := by
  obtain ⟨h1, h2, h3⟩ :=
    C4_client_error_and_retry_after {} {} none 1
  exact ⟨h1, h2, h3 ErrorType.serverError (by decide)⟩

/-- C7: with the default configuration (base 1, max exponent 8), three
recorded ServerError occurrences give error count 3, the delay with
jitter factor 1 is exactly `2 ^ 3 = 8`, and with any jitter factor in
`[0.8, 1.2]` the delay lies in `[6.4, 9.6]`. -/
theorem C7_exponential_delay_after_three_errors (t1 t2 t3 j : ℚ)
    (hj1 : 4/5 ≤ j) (hj2 : j ≤ 6/5) :
    ((({} : BackoffState).record_error ErrorType.serverError none t1
        |>.record_error ErrorType.serverError none t2
        |>.record_error ErrorType.serverError none t3).error_count = 3)
    ∧ calculate_delay {}
        (({} : BackoffState).record_error ErrorType.serverError none t1
          |>.record_error ErrorType.serverError none t2
          |>.record_error ErrorType.serverError none t3)
        ErrorType.serverError none 1 = 8
    ∧ 32/5 ≤ calculate_delay {}
        (({} : BackoffState).record_error ErrorType.serverError none t1
          |>.record_error ErrorType.serverError none t2
          |>.record_error ErrorType.serverError none t3)
        ErrorType.serverError none j
    ∧ calculate_delay {}
        (({} : BackoffState).record_error ErrorType.serverError none t1
          |>.record_error ErrorType.serverError none t2
          |>.record_error ErrorType.serverError none t3)
        ErrorType.serverError none j ≤ 48/5 := by
  have hdelay : ∀ jit : ℚ, calculate_delay {}
      (({} : BackoffState).record_error ErrorType.serverError none t1
        |>.record_error ErrorType.serverError none t2
        |>.record_error ErrorType.serverError none t3)
      ErrorType.serverError none jit = min (8 * jit) 300 := by
    intro jit
    show (if (ErrorType.serverError = ErrorType.clientError) then (0:ℚ)
        else min ((1 * 2 ^ (min 3 8)) * jit) 300) = min (8 * jit) 300
    rw [if_neg (by decide)]
    norm_num
  refine ⟨rfl, ?_, ?_, ?_⟩
  · rw [hdelay 1]
    norm_num
  · rw [hdelay j]
    rw [min_eq_left (by linarith)]
    linarith
  · rw [hdelay j]
    rw [min_eq_left (by linarith)]
    linarith

/-- C7 witness: the theorem instantiated at concrete error instants and
jitter factor 1. -/
theorem C7_witness :
    calculate_delay {}
      (({} : BackoffState).record_error ErrorType.serverError none 10
        |>.record_error ErrorType.serverError none 20
        |>.record_error ErrorType.serverError none 30)
      ErrorType.serverError none 1 = 8 := by
  exact (C7_exponential_delay_after_three_errors 10 20 30 1
    (by norm_num) (by norm_num)).2.1

/-- C8: for every endpoint backoff state, three consecutive
`record_success` calls reset the error count to 0 and clear the last
error classification and the explicit retry-after instant. -/
theorem C8_three_successes_reset (s : BackoffState) :
    (s.record_success.record_success.record_success).error_count = 0
    ∧ (s.record_success.record_success.record_success).last_error_type = none
    ∧ (s.record_success.record_success.record_success).retry_after = none := by
  unfold BackoffState.record_success
  split_ifs <;> simp_all

theorem rulesDecision_eq_find (rs : List RobotsRule) (p : String) :
    rulesDecision rs p =
      ((rs.find? (fun r => r.matches p)).map RobotsRule.allow).getD true := by
  induction rs with
  | nil => rfl
  | cons r rs ih =>
      unfold rulesDecision
      rw [List.find?_cons]
      cases hm : r.matches p <;> simp [hm, ih]

/-- C6: rules are evaluated in declaration order and the first matching
rule's allow/deny decision wins, a path matching no rule is allowed;
`Disallow: /admin/` blocks `/admin/settings` and allows `/public`,
`Disallow: /page$` blocks `/page` but allows `/page/subpage`, and an
`Allow: /admin/public/` rule declared before `Disallow: /admin/` makes
`/admin/public/` allowed. -/
theorem C6_robots_first_match_wins (d : RobotsDirectives) (p : String) :
    d.is_allowed p =
      ((d.rules.find? (fun r => r.matches p)).map RobotsRule.allow).getD true
    ∧ RobotsDirectives.is_allowed
        { user_agent := "*", rules := [{ path := "/admin/", allow := false }] }
        "/admin/settings" = false
    ∧ RobotsDirectives.is_allowed
        { user_agent := "*", rules := [{ path := "/admin/", allow := false }] }
        "/public" = true
    ∧ RobotsDirectives.is_allowed
        { user_agent := "*", rules := [{ path := "/page$", allow := false }] }
        "/page" = false
    ∧ RobotsDirectives.is_allowed
        { user_agent := "*", rules := [{ path := "/page$", allow := false }] }
        "/page/subpage" = true
    ∧ RobotsDirectives.is_allowed
        { user_agent := "*",
          rules := [{ path := "/admin/public/", allow := true },
                    { path := "/admin/", allow := false }] }
        "/admin/public/" = true := by
  exact ⟨rulesDecision_eq_find d.rules p, by decide, by decide, by decide,
    by decide, by decide⟩

/-- C5: for every activity-tracker state and configured interval triple,
the adaptive interval is the minimum when spiking, `max (default * 0.5)
minimum` under high activity, `min (default * 2) maximum` under low
activity, and the default otherwise; and for the new-content category
(default 5 min, minimum 1 min, maximum 30 min) with no recorded
activity the interval is `min (10 min) (30 min) = 10` minutes. -/
theorem C5_adaptive_interval_selection (tr : ActivityTracker) (now : ℚ)
    (config : PollingInterval) :
    (tr.is_spiking now = true →
      adaptiveIntervalFor tr now config = config.minimum)
    ∧ (tr.is_spiking now = false → tr.is_high_activity now = true →
      adaptiveIntervalFor tr now config =
        max (config.default * (1/2)) config.minimum)
    ∧ (tr.is_spiking now = false → tr.is_high_activity now = false →
        tr.is_low_activity now = true →
      adaptiveIntervalFor tr now config =
        min (config.default * 2) config.maximum)
    ∧ (tr.is_spiking now = false → tr.is_high_activity now = false →
        tr.is_low_activity now = false →
      adaptiveIntervalFor tr now config = config.default)
    ∧ get_adaptive_interval { window_size := 3600, samples := [] } now
        EndpointType.newPosts = 10 * 60 := by
  refine ⟨?_, ?_, ?_, ?_, ?_⟩
  · intro h
    simp [adaptiveIntervalFor, h]
  · intro h1 h2
    simp [adaptiveIntervalFor, h1, h2]
  · intro h1 h2 h3
    simp [adaptiveIntervalFor, h1, h2, h3]
  · intro h1 h2 h3
    simp [adaptiveIntervalFor, h1, h2, h3]
  · have hc : ActivityTracker.cleanSamples
        { window_size := 3600, samples := [] } now = [] := rfl
    simp [get_adaptive_interval, defaultIntervals, adaptiveIntervalFor,
      ActivityTracker.is_spiking, ActivityTracker.is_high_activity,
      ActivityTracker.is_low_activity, ActivityTracker.get_rate, hc]
    norm_num

/-- C5 witness: the empty tracker is not spiking, not high-activity and
low-activity, and the theorem yields `min (600) (1800) = 600` seconds
for the new-content interval triple. -/
theorem C5_witness :
    ActivityTracker.is_spiking { window_size := 3600, samples := [] } 0 = false
    ∧ ActivityTracker.is_high_activity
        { window_size := 3600, samples := [] } 0 = false
    ∧ ActivityTracker.is_low_activity
        { window_size := 3600, samples := [] } 0 = true
    ∧ adaptiveIntervalFor { window_size := 3600, samples := [] } 0
        { default := 300, minimum := 60, maximum := 1800 } =
        min (300 * 2) 1800 := by
  have hs : ActivityTracker.is_spiking
      { window_size := 3600, samples := [] } 0 = false := by decide
  have hh : ActivityTracker.is_high_activity
      { window_size := 3600, samples := [] } 0 = false := by decide
  have hl : ActivityTracker.is_low_activity
      { window_size := 3600, samples := [] } 0 = true := by decide
  exact ⟨hs, hh, hl,
    (C5_adaptive_interval_selection { window_size := 3600, samples := [] } 0
      { default := 300, minimum := 60, maximum := 1800 }).2.2.1 hs hh hl⟩

theorem cleanupWindow_eq_self {l : List ℚ} {c : ℚ}
    (h : ∀ t ∈ l, ¬ t < c) : RateLimiter.cleanupWindow l c = l := by
  cases l with
  | nil => rfl
  | cons a l =>
      unfold RateLimiter.cleanupWindow
      rw [List.dropWhile_cons]
      simp [h a (by simp)]

/-- C3: for every configuration with a positive minute window, after
recording exactly `requests_per_minute` requests all falling within the
current minute window, `can_request` returns false, and `wait_time` is
strictly positive and at most the minute window duration. -/
theorem C3_minute_limit_blocks (cfg : RateLimitConfig) (ts : List ℚ)
    (now : ℚ) (api : RateLimitState) (bu : RequestBudget → ℕ)
    (hwin : 0 < cfg.minute_window)
    (hlen : (ts.length : ℤ) = cfg.requests_per_minute)
    (hts : ∀ t ∈ ts, now - cfg.minute_window < t ∧ t ≤ now) :
    RateLimiter.can_request
      { config := cfg, minute_requests := ts, hour_requests := ts,
        day_requests := ts, api_state := api, budget_usage := bu } now none
      = false
    ∧ 0 < RateLimiter.wait_time
      { config := cfg, minute_requests := ts, hour_requests := ts,
        day_requests := ts, api_state := api, budget_usage := bu } now
    ∧ RateLimiter.wait_time
      { config := cfg, minute_requests := ts, hour_requests := ts,
        day_requests := ts, api_state := api, budget_usage := bu } now
      ≤ cfg.minute_window := by
  have hclean : RateLimiter.minuteClean
      { config := cfg, minute_requests := ts, hour_requests := ts,
        day_requests := ts, api_state := api, budget_usage := bu } now = ts := by
    unfold RateLimiter.minuteClean
    exact cleanupWindow_eq_self (fun t ht => not_lt.mpr (le_of_lt (hts t ht).1))
  have hsat : RateLimiter.minuteSaturated
      { config := cfg, minute_requests := ts, hour_requests := ts,
        day_requests := ts, api_state := api, budget_usage := bu } now := by
    unfold RateLimiter.minuteSaturated
    rw [hclean, hlen]
  have hwaitpos : 0 < RateLimiter.minuteWait
      { config := cfg, minute_requests := ts, hour_requests := ts,
        day_requests := ts, api_state := api, budget_usage := bu } now := by
    unfold RateLimiter.minuteWait
    rw [hclean]
    cases ts with
    | nil => simpa using hwin
    | cons a l =>
        have := (hts a (by simp)).1
        simp only [List.head?_cons, Option.getD_some]
        linarith
  have hwaitle : RateLimiter.minuteWait
      { config := cfg, minute_requests := ts, hour_requests := ts,
        day_requests := ts, api_state := api, budget_usage := bu } now
      ≤ cfg.minute_window := by
    unfold RateLimiter.minuteWait
    rw [hclean]
    cases ts with
    | nil => simp
    | cons a l =>
        have := (hts a (by simp)).2
        simp only [List.head?_cons, Option.getD_some]
        linarith
  refine ⟨?_, ?_, ?_⟩
  · unfold RateLimiter.can_request
    rw [if_pos (by exact hsat)]
  · unfold RateLimiter.wait_time
    rw [if_pos ⟨hsat, hwaitpos⟩]
    exact hwaitpos
  · unfold RateLimiter.wait_time
    rw [if_pos ⟨hsat, hwaitpos⟩]
    exact hwaitle

/-- C3 witness: the default configuration with 100 requests all inside
the current minute window. -/
theorem C3_witness :
    RateLimiter.can_request
      { config := {}, minute_requests := List.replicate 100 (50 : ℚ),
        hour_requests := List.replicate 100 (50 : ℚ),
        day_requests := List.replicate 100 (50 : ℚ),
        api_state := {}, budget_usage := fun _ => 0 } 60 none = false
    ∧ 0 < RateLimiter.wait_time
      { config := {}, minute_requests := List.replicate 100 (50 : ℚ),
        hour_requests := List.replicate 100 (50 : ℚ),
        day_requests := List.replicate 100 (50 : ℚ),
        api_state := {}, budget_usage := fun _ => 0 } 60
    ∧ RateLimiter.wait_time
      { config := {}, minute_requests := List.replicate 100 (50 : ℚ),
        hour_requests := List.replicate 100 (50 : ℚ),
        day_requests := List.replicate 100 (50 : ℚ),
        api_state := {}, budget_usage := fun _ => 0 } 60
      ≤ RateLimitConfig.minute_window {} := by
  exact C3_minute_limit_blocks {} (List.replicate 100 (50 : ℚ)) 60 {}
    (fun _ => 0) (by norm_num) (by norm_num)
    (by intro t ht; rw [List.eq_of_mem_replicate ht]; norm_num)

/-- C10: when the reserve category's own minute usage has reached
`floor (requests_per_minute * reserve allocation)`, `can_request` on
the reserve category returns false even though every sliding window is
below its hard limit and the API-reported state does not block: the
reserve category cannot borrow from its own headroom. -/
theorem C10_reserve_cannot_borrow (rl : RateLimiter) (now : ℚ)
    (hrpm : 0 ≤ rl.config.requests_per_minute)
    (hm : ¬ rl.minuteSaturated now)
    (hh : ¬ rl.hourSaturated now)
    (hd : ¬ rl.daySaturated now)
    (hapi : rl.apiBlocks now = false)
    (husage : (rl.budget_usage RequestBudget.reserve : ℤ) ≥
      ⌊(rl.config.requests_per_minute : ℚ) *
        budgetAllocation RequestBudget.reserve⌋) :
    rl.can_request now (some RequestBudget.reserve) = false := by
  have hfloor : pyInt ((rl.config.requests_per_minute : ℚ) *
      budgetAllocation RequestBudget.reserve) =
      ⌊(rl.config.requests_per_minute : ℚ) *
        budgetAllocation RequestBudget.reserve⌋ := by
    apply pyInt_eq_floor
    have : (0 : ℚ) ≤ (rl.config.requests_per_minute : ℚ) := by
      exact_mod_cast hrpm
    have halloc : (0 : ℚ) ≤ budgetAllocation RequestBudget.reserve := by
      norm_num [budgetAllocation]
    positivity
  unfold RateLimiter.can_request
  rw [if_neg (by simpa [RateLimiter.minuteSaturated] using hm)]
  rw [if_neg (by simpa [RateLimiter.hourSaturated] using hh)]
  rw [if_neg (by simpa [RateLimiter.daySaturated] using hd)]
  rw [if_neg (by simp [hapi])]
  simp only
  rw [if_pos (by rw [hfloor]; exact husage)]
  rw [if_pos (by rw [hfloor]; omega)]

/-- C10 witness: default configuration (100/minute, reserve allocation
one tenth) with reserve usage 10 and empty windows. -/
theorem C10_witness :
    RateLimiter.can_request
      { config := {}, minute_requests := [], hour_requests := [],
        day_requests := [], api_state := {},
        budget_usage := fun b => if b = RequestBudget.reserve then 10 else 0 }
      0 (some RequestBudget.reserve) = false := by
  exact C10_reserve_cannot_borrow
    { config := {}, minute_requests := [], hour_requests := [],
      day_requests := [], api_state := {},
      budget_usage := fun b => if b = RequestBudget.reserve then 10 else 0 }
    0 (by norm_num)
    (by simp [RateLimiter.minuteSaturated, RateLimiter.minuteClean,
      RateLimiter.cleanupWindow])
    (by simp [RateLimiter.hourSaturated, RateLimiter.hourClean,
      RateLimiter.cleanupWindow])
    (by simp [RateLimiter.daySaturated, RateLimiter.dayClean,
      RateLimiter.cleanupWindow])
    (by rfl)
    (by norm_num [budgetAllocation])

/-- A window "blocks" when it is saturated and its oldest retained
entry has not yet exited the window (positive exit delay).  This is the
wait of the earliest blocking window in the minute, hour, day order,
following the spec's wording. -/
def RateLimiter.firstBlockingWait (rl : RateLimiter) (now : ℚ) : Option ℚ :=
  if rl.minuteSaturated now ∧ 0 < rl.minuteWait now then
    some (rl.minuteWait now)
  else if rl.hourSaturated now ∧ 0 < rl.hourWait now then
    some (rl.hourWait now)
  else if rl.daySaturated now ∧ 0 < rl.dayWait now then
    some (rl.dayWait now)
  else none

/-- C2: `wait_time` is never negative; when some window blocks it
returns the delay until the earliest blocking window's oldest timestamp
exits that window; when no window blocks but the upstream-reported
remaining budget is exhausted with a reset instant still in the future
it returns the delay until that reset; and it returns zero whenever no
window is saturated and the upstream-reported state does not block. -/
theorem C2_wait_time_characterization (rl : RateLimiter) (now : ℚ) :
    0 ≤ rl.wait_time now
    ∧ (∀ w, rl.firstBlockingWait now = some w → rl.wait_time now = w)
    ∧ (∀ rem reset, rl.firstBlockingWait now = none →
        rl.api_state.remaining = some rem → rem ≤ 0 →
        rl.api_state.reset_at = some reset → 0 < reset - now →
        rl.wait_time now = reset - now)
    ∧ (¬ rl.minuteSaturated now → ¬ rl.hourSaturated now →
        ¬ rl.daySaturated now → rl.apiBlocks now = false →
        rl.wait_time now = 0) := by
  refine ⟨?_, ?_, ?_, ?_⟩
  · unfold RateLimiter.wait_time
    split_ifs with h1 h2 h3
    · linarith [h1.2]
    · linarith [h2.2]
    · linarith [h3.2]
    · rcases hr : rl.api_state.remaining with _ | rem <;>
        rcases hs : rl.api_state.reset_at with _ | reset <;> simp
      split_ifs with h4
      · linarith [h4.2]
      · linarith
  · intro w hw
    unfold RateLimiter.firstBlockingWait at hw
    unfold RateLimiter.wait_time
    split_ifs at hw ⊢ with h1 h2 h3 <;> simp_all
  · intro rem reset hnone hrem hrle hreset hpos
    unfold RateLimiter.firstBlockingWait at hnone
    unfold RateLimiter.wait_time
    split_ifs at hnone ⊢ with h1 h2 h3
    rw [hrem, hreset]
    show (if rem ≤ 0 ∧ 0 < reset - now then reset - now else 0) = reset - now
    rw [if_pos ⟨hrle, hpos⟩]
  · intro hm hh hd hapi
    unfold RateLimiter.wait_time
    rw [if_neg (fun hc => hm hc.1), if_neg (fun hc => hh hc.1),
      if_neg (fun hc => hd hc.1)]
    unfold RateLimiter.apiBlocks at hapi
    rcases hr : rl.api_state.remaining with _ | rem <;>
      rcases hs : rl.api_state.reset_at with _ | reset
    · rfl
    · rfl
    · rfl
    · rw [hr, hs] at hapi
      show (if rem ≤ 0 ∧ 0 < reset - now then reset - now else 0) = 0
      rw [if_neg ?_]
      intro hc
      have h2 : now < reset := by linarith [hc.2]
      simp [hc.1, h2] at hapi

/-- C2 witness: a limiter whose minute window (2 requests at instants
10 and 20, limit 2) blocks at instant 30, where the theorem yields a
wait of 40 seconds. -/
theorem C2_witness :
    RateLimiter.firstBlockingWait
      { config := { requests_per_minute := 2 }, minute_requests := [10, 20],
        hour_requests := [10, 20], day_requests := [10, 20],
        api_state := {}, budget_usage := fun _ => 0 } 30 = some 40
    ∧ RateLimiter.wait_time
      { config := { requests_per_minute := 2 }, minute_requests := [10, 20],
        hour_requests := [10, 20], day_requests := [10, 20],
        api_state := {}, budget_usage := fun _ => 0 } 30 = 40 := by
  have hclean : RateLimiter.minuteClean
      { config := { requests_per_minute := 2 }, minute_requests := [10, 20],
        hour_requests := [10, 20], day_requests := [10, 20],
        api_state := {}, budget_usage := fun _ => 0 } 30 = [10, 20] := by
    unfold RateLimiter.minuteClean
    exact cleanupWindow_eq_self (by intro t ht; fin_cases ht <;> norm_num)
  have hsat : RateLimiter.minuteSaturated
      { config := { requests_per_minute := 2 }, minute_requests := [10, 20],
        hour_requests := [10, 20], day_requests := [10, 20],
        api_state := {}, budget_usage := fun _ => 0 } 30 := by
    unfold RateLimiter.minuteSaturated
    rw [hclean]
    norm_num
  have hw : RateLimiter.minuteWait
      { config := { requests_per_minute := 2 }, minute_requests := [10, 20],
        hour_requests := [10, 20], day_requests := [10, 20],
        api_state := {}, budget_usage := fun _ => 0 } 30 = 40 := by
    unfold RateLimiter.minuteWait
    rw [hclean]
    norm_num
  have hfb : RateLimiter.firstBlockingWait
      { config := { requests_per_minute := 2 }, minute_requests := [10, 20],
        hour_requests := [10, 20], day_requests := [10, 20],
        api_state := {}, budget_usage := fun _ => 0 } 30 = some 40 := by
    unfold RateLimiter.firstBlockingWait
    rw [if_pos ⟨hsat, by rw [hw]; norm_num⟩, hw]
  exact ⟨hfb, (C2_wait_time_characterization
    { config := { requests_per_minute := 2 }, minute_requests := [10, 20],
      hour_requests := [10, 20], day_requests := [10, 20],
      api_state := {}, budget_usage := fun _ => 0 } 30).2.1 40 hfb⟩

/-! ## Association-list lemmas for the deduplication proofs -/

theorem dictGet_eq_none {β : Type} {l : List (String × β)} {k : String} :
    dictGet k l = none ↔ k ∉ l.map Prod.fst := by
  induction l with
  | nil => simp [dictGet]
  | cons e l ih =>
      unfold dictGet
      by_cases he : e.1 = k
      · subst he
        simp
      · simp only [if_neg he, ih, List.map_cons, List.mem_cons]
        constructor
        · intro hk hc
          rcases hc with hc | hc
          · exact he hc.symm
          · exact hk hc
        · intro hk hc
          exact hk (Or.inr hc)

theorem dictGet_mem {β : Type} {l : List (String × β)} {k : String} {v : β}
    (h : dictGet k l = some v) : (k, v) ∈ l := by
  induction l with
  | nil => simp [dictGet] at h
  | cons e l ih =>
      unfold dictGet at h
      by_cases he : e.1 = k
      · rw [if_pos he] at h
        have hv : e.2 = v := Option.some.inj h
        have : e = (k, v) := by
          cases e
          simp_all
        rw [← this]
        exact List.mem_cons_self e l
      · rw [if_neg he] at h
        exact List.mem_cons_of_mem e (ih h)

theorem mem_dictGet {β : Type} {l : List (String × β)} {k : String} {v : β}
    (hnd : (l.map Prod.fst).Nodup) (h : (k, v) ∈ l) : dictGet k l = some v := by
  induction l with
  | nil => simp at h
  | cons e l ih =>
      rw [List.map_cons, List.nodup_cons] at hnd
      rcases List.mem_cons.mp h with he | hm
      · rw [← he]
        unfold dictGet
        rw [if_pos rfl]
      · have hk : k ∈ l.map Prod.fst :=
          List.mem_map.mpr ⟨(k, v), hm, rfl⟩
        have hne : e.1 ≠ k := fun hc => hnd.1 (hc ▸ hk)
        unfold dictGet
        rw [if_neg hne]
        exact ih hnd.2 hm

theorem dictGet_cons {β : Type} (e : String × β) (l : List (String × β))
    (k : String) :
    dictGet k (e :: l) = if e.1 = k then some e.2 else dictGet k l := rfl

theorem dictGet_filter {β : Type} {l : List (String × β)}
    {p : String × β → Bool} (hnd : (l.map Prod.fst).Nodup)
    {k : String} {v : β} :
    dictGet k (l.filter p) = some v ↔
      dictGet k l = some v ∧ p (k, v) = true := by
  induction l with
  | nil => simp [dictGet]
  | cons e l ih =>
      rw [List.map_cons, List.nodup_cons] at hnd
      rw [List.filter_cons]
      by_cases hp : p e = true
      · rw [if_pos hp, dictGet_cons, dictGet_cons]
        by_cases he : e.1 = k
        · rw [if_pos he, if_pos he]
          constructor
          · intro hv
            have hv2 : e.2 = v := Option.some.inj hv
            refine ⟨hv, ?_⟩
            have hkv : (k, v) = e := by
              cases e
              simp_all
            rw [hkv]
            exact hp
          · exact fun hv => hv.1
        · rw [if_neg he, if_neg he]
          exact ih hnd.2
      · rw [if_neg hp, ih hnd.2, dictGet_cons]
        by_cases he : e.1 = k
        · rw [if_pos he]
          constructor
          · intro ⟨hv, hpv⟩
            exfalso
            have hk : k ∈ l.map Prod.fst :=
              List.mem_map.mpr ⟨(k, v), dictGet_mem hv, rfl⟩
            exact hnd.1 (he ▸ hk)
          · intro ⟨hv, hpv⟩
            exfalso
            have hv2 : e.2 = v := Option.some.inj hv
            have hkv : (k, v) = e := by
              cases e
              simp_all
            rw [hkv] at hpv
            exact hp hpv
        · rw [if_neg he]

theorem dictGet_filter_keyne {β : Type} {l : List (String × β)}
    {h k : String} (hne : k ≠ h) :
    dictGet k (l.filter (fun e => e.1 ≠ h)) = dictGet k l := by
  induction l with
  | nil => rfl
  | cons e l ih =>
      rw [List.filter_cons]
      by_cases hd : e.1 = h
      · rw [if_neg (by simp [hd]), ih, dictGet_cons,
          if_neg (fun hc => hne (hc.symm.trans hd))]
      · rw [if_pos (by simp [hd]), dictGet_cons, dictGet_cons]
        by_cases he : e.1 = k
        · rw [if_pos he, if_pos he]
        · rw [if_neg he, if_neg he]
          exact ih

theorem dictGet_map_update {β : Type} (l : List (String × β)) (k' : String)
    (f : β → β) (q : String) :
    dictGet q (l.map (fun e => if e.1 = k' then (e.1, f e.2) else e)) =
      if q = k' then (dictGet q l).map f else dictGet q l := by
  induction l with
  | nil => cases hq : decide (q = k') <;> simp_all [dictGet]
  | cons e l ih =>
      rw [List.map_cons]
      unfold dictGet
      by_cases hek : e.1 = k'
      · rw [if_pos hek]
        by_cases heq : e.1 = q
        · simp only [if_pos heq]
          rw [if_pos (heq ▸ hek : q = k')]
          simp
        · simp only [if_neg heq]
          exact ih
      · rw [if_neg hek]
        by_cases heq : e.1 = q
        · simp only [if_pos heq]
          rw [if_neg (fun hc => hek (heq.symm ▸ hc) : ¬ q = k')]
        · simp only [if_neg heq]
          exact ih

theorem keys_map_update {β : Type} (l : List (String × β)) (k' : String)
    (f : β → β) :
    (l.map (fun e => if e.1 = k' then (e.1, f e.2) else e)).map Prod.fst =
      l.map Prod.fst := by
  induction l with
  | nil => rfl
  | cons e l ih =>
      simp only [List.map_cons, ih]
      by_cases hek : e.1 = k'
      · rw [if_pos hek]
      · rw [if_neg hek]

/-! ## Index invariants of the deduplication tracker -/

/-- Every stored record was created by some `markSeen` operation of the
trace, with the fingerprint it stores. -/
def originMark (ops : List DedupOp) (t : DeduplicationTracker) : Prop :=
  ∀ p r, dictGet p t.by_id = some r →
    ∃ n, DedupOp.markSeen p r.content_hash n ∈ ops

theorem consistentFingerprints_mono {ops ops' : List DedupOp}
    (hsub : ∀ x, x ∈ ops → x ∈ ops')
    (h : consistentFingerprints ops') : consistentFingerprints ops :=
  fun p h1 n p2 h2 n2 m1 m2 he =>
    h p h1 n p2 h2 n2 (hsub _ m1) (hsub _ m2) he

theorem dedupBase_step (t : DeduplicationTracker) (op : DedupOp)
    (hnid : (t.by_id.map Prod.fst).Nodup)
    (hnhash : (t.by_hash.map Prod.fst).Nodup)
    (hsound : hashIndexSound t) :
    ((op.apply t).by_id.map Prod.fst).Nodup ∧
    ((op.apply t).by_hash.map Prod.fst).Nodup ∧
    hashIndexSound (op.apply t) := by
  cases op with
  | markSeen p h n =>
      show ((t.mark_seen p h n).by_id.map Prod.fst).Nodup ∧
        ((t.mark_seen p h n).by_hash.map Prod.fst).Nodup ∧
        hashIndexSound (t.mark_seen p h n)
      cases hmem : dictGet p t.by_id with
      | some r0 =>
          have hid : (t.mark_seen p h n).by_id = t.by_id.map (fun e =>
              if e.1 = p then (e.1, DeduplicationTracker.touchRecord n e.2) else e) := by
            unfold DeduplicationTracker.mark_seen
            rw [hmem]
          have hhash : (t.mark_seen p h n).by_hash = t.by_hash := by
            unfold DeduplicationTracker.mark_seen
            rw [hmem]
          refine ⟨?_, ?_, ?_⟩
          · rw [hid, keys_map_update]
            exact hnid
          · rw [hhash]
            exact hnhash
          · intro h' p' hhp
            rw [hhash] at hhp
            obtain ⟨r, hr, hch⟩ := hsound h' p' hhp
            rw [hid, dictGet_map_update]
            by_cases hp' : p' = p
            · rw [if_pos hp']
              rw [hp'] at hr ⊢
              rw [hr]
              exact ⟨DeduplicationTracker.touchRecord n r, rfl, hch⟩
            · rw [if_neg hp']
              exact ⟨r, hr, hch⟩
      | none =>
          have hid : (t.mark_seen p h n).by_id =
              (p, { post_id := p, content_hash := h, first_seen_at := n,
                    last_seen_at := n, seen_count := 1 }) :: t.by_id := by
            unfold DeduplicationTracker.mark_seen
            rw [hmem]
          have hhash : (t.mark_seen p h n).by_hash =
              (h, p) :: t.by_hash.filter (fun e => e.1 ≠ h) := by
            unfold DeduplicationTracker.mark_seen
            rw [hmem]
          refine ⟨?_, ?_, ?_⟩
          · rw [hid, List.map_cons, List.nodup_cons]
            exact ⟨dictGet_eq_none.mp hmem, hnid⟩
          · rw [hhash, List.map_cons, List.nodup_cons]
            constructor
            · intro hc
              obtain ⟨e, he, hfst⟩ := List.mem_map.mp hc
              have h2 := (List.mem_filter.mp he).2
              simp only [decide_eq_true_eq] at h2
              exact h2 hfst
            · exact List.Nodup.sublist
                ((List.filter_sublist _).map Prod.fst) hnhash
          · intro h' p' hhp
            rw [hhash, dictGet_cons] at hhp
            by_cases hh' : h = h'
            · rw [if_pos hh'] at hhp
              obtain rfl : p = p' := Option.some.inj hhp
              exact ⟨{ post_id := p, content_hash := h, first_seen_at := n,
                       last_seen_at := n, seen_count := 1 },
                by rw [hid, dictGet_cons, if_pos rfl], hh'⟩
            · rw [if_neg hh'] at hhp
              have hhp2 : dictGet h' t.by_hash = some p' := by
                rw [← dictGet_filter_keyne (fun hc => hh' hc.symm)]
                exact hhp
              obtain ⟨r, hr, hch⟩ := hsound h' p' hhp2
              refine ⟨r, ?_, hch⟩
              rw [hid, dictGet_cons, if_neg ?_]
              · exact hr
              · intro hpp'
                rw [← hpp', hmem] at hr
                exact Option.noConfusion hr
  | cleanupExpired n =>
      have hid : (t.cleanup_expired n).by_id =
          t.by_id.filter (fun e => ¬ e.2.last_seen_at < n - t.ttl) := rfl
      have hhash : (t.cleanup_expired n).by_hash =
          t.by_hash.filter (fun e => ¬ e.1 ∈
            ((t.by_id.filter
                (fun e2 => e2.2.last_seen_at < n - t.ttl)).map
              (fun e2 => e2.2.content_hash))) := rfl
      show ((t.cleanup_expired n).by_id.map Prod.fst).Nodup ∧
        ((t.cleanup_expired n).by_hash.map Prod.fst).Nodup ∧
        hashIndexSound (t.cleanup_expired n)
      refine ⟨?_, ?_, ?_⟩
      · rw [hid]
        exact List.Nodup.sublist ((List.filter_sublist _).map Prod.fst) hnid
      · rw [hhash]
        exact List.Nodup.sublist ((List.filter_sublist _).map Prod.fst) hnhash
      · intro h' p' hhp
        rw [hhash, dictGet_filter hnhash] at hhp
        obtain ⟨hhp2, hnotin⟩ := hhp
        simp only [decide_eq_true_eq] at hnotin
        obtain ⟨r, hr, hch⟩ := hsound h' p' hhp2
        refine ⟨r, ?_, hch⟩
        rw [hid, dictGet_filter hnid]
        refine ⟨hr, ?_⟩
        simp only [decide_eq_true_eq]
        intro hexp
        apply hnotin
        refine List.mem_map.mpr ⟨(p', r), ?_, hch⟩
        exact List.mem_filter.mpr ⟨dictGet_mem hr, by simp [hexp]⟩

theorem dedupFull_step (ops : List DedupOp) (op : DedupOp)
    (t : DeduplicationTracker)
    (hcons : consistentFingerprints (ops ++ [op]))
    (hnid : (t.by_id.map Prod.fst).Nodup)
    (hnhash : (t.by_hash.map Prod.fst).Nodup)
    (hsound : hashIndexSound t)
    (horig : originMark ops t) (hcov : idIndexCovered t) :
    originMark (ops ++ [op]) (op.apply t) ∧ idIndexCovered (op.apply t) := by
  cases op with
  | markSeen p h n =>
      show originMark _ (t.mark_seen p h n) ∧
        idIndexCovered (t.mark_seen p h n)
      cases hmem : dictGet p t.by_id with
      | some r0 =>
          have hid : (t.mark_seen p h n).by_id = t.by_id.map (fun e =>
              if e.1 = p then (e.1, DeduplicationTracker.touchRecord n e.2) else e) := by
            unfold DeduplicationTracker.mark_seen
            rw [hmem]
          have hhash : (t.mark_seen p h n).by_hash = t.by_hash := by
            unfold DeduplicationTracker.mark_seen
            rw [hmem]
          constructor
          · intro q r' hq
            rw [hid, dictGet_map_update] at hq
            by_cases hqp : q = p
            · rw [if_pos hqp] at hq
              rw [hqp] at hq ⊢
              rw [hmem] at hq
              obtain rfl : DeduplicationTracker.touchRecord n r0 = r' := Option.some.inj hq
              obtain ⟨n', hn'⟩ := horig p r0 hmem
              exact ⟨n', List.mem_append_left _ hn'⟩
            · rw [if_neg hqp] at hq
              obtain ⟨n', hn'⟩ := horig q r' hq
              exact ⟨n', List.mem_append_left _ hn'⟩
          · intro q r' hq
            rw [hid, dictGet_map_update] at hq
            rw [hhash]
            by_cases hqp : q = p
            · rw [if_pos hqp] at hq
              rw [hqp] at hq ⊢
              rw [hmem] at hq
              obtain rfl : DeduplicationTracker.touchRecord n r0 = r' := Option.some.inj hq
              exact hcov p r0 hmem
            · rw [if_neg hqp] at hq
              exact hcov q r' hq
      | none =>
          have hid : (t.mark_seen p h n).by_id =
              (p, { post_id := p, content_hash := h, first_seen_at := n,
                    last_seen_at := n, seen_count := 1 }) :: t.by_id := by
            unfold DeduplicationTracker.mark_seen
            rw [hmem]
          have hhash : (t.mark_seen p h n).by_hash =
              (h, p) :: t.by_hash.filter (fun e => e.1 ≠ h) := by
            unfold DeduplicationTracker.mark_seen
            rw [hmem]
          constructor
          · intro q r' hq
            rw [hid, dictGet_cons] at hq
            by_cases hpq : p = q
            · rw [if_pos hpq] at hq
              obtain rfl := Option.some.inj hq
              refine ⟨n, List.mem_append_right _ ?_⟩
              rw [← hpq]
              exact List.mem_singleton.mpr rfl
            · rw [if_neg hpq] at hq
              obtain ⟨n', hn'⟩ := horig q r' hq
              exact ⟨n', List.mem_append_left _ hn'⟩
          · intro q r' hq
            rw [hid, dictGet_cons] at hq
            rw [hhash]
            by_cases hpq : p = q
            · rw [if_pos hpq] at hq
              obtain rfl := Option.some.inj hq
              rw [dictGet_cons, if_pos rfl]
              exact congrArg some hpq
            · rw [if_neg hpq] at hq
              have hcv := hcov q r' hq
              rw [dictGet_cons]
              by_cases hch : r'.content_hash = h
              · exfalso
                obtain ⟨n1, hn1⟩ := horig q r' hq
                have hqp2 : q = p := hcons q r'.content_hash n1 p h n
                  (List.mem_append_left _ hn1)
                  (List.mem_append_right _ (List.mem_singleton.mpr rfl)) hch
                exact hpq hqp2.symm
              · rw [if_neg (fun hc => hch hc.symm)]
                rw [dictGet_filter_keyne hch]
                exact hcv
  | cleanupExpired n =>
      have hid : (t.cleanup_expired n).by_id =
          t.by_id.filter (fun e => ¬ e.2.last_seen_at < n - t.ttl) := rfl
      have hhash : (t.cleanup_expired n).by_hash =
          t.by_hash.filter (fun e => ¬ e.1 ∈
            ((t.by_id.filter
                (fun e2 => e2.2.last_seen_at < n - t.ttl)).map
              (fun e2 => e2.2.content_hash))) := rfl
      show originMark _ (t.cleanup_expired n) ∧
        idIndexCovered (t.cleanup_expired n)
      constructor
      · intro q r' hq
        rw [hid, dictGet_filter hnid] at hq
        obtain ⟨n', hn'⟩ := horig q r' hq.1
        exact ⟨n', List.mem_append_left _ hn'⟩
      · intro q r' hq
        rw [hid, dictGet_filter hnid] at hq
        obtain ⟨hq1, hkeep⟩ := hq
        simp only [decide_eq_true_eq] at hkeep
        have hcv := hcov q r' hq1
        rw [hhash, dictGet_filter hnhash]
        refine ⟨hcv, ?_⟩
        simp only [decide_eq_true_eq]
        intro hin
        obtain ⟨e, he, hche⟩ := List.mem_map.mp hin
        obtain ⟨hemem, hexp⟩ := List.mem_filter.mp he
        simp only [decide_eq_true_eq] at hexp
        have hq2 : dictGet e.1 t.by_id = some e.2 := by
          apply mem_dictGet hnid
          rw [Prod.mk.eta]
          exact hemem
        obtain ⟨n1, hn1⟩ := horig q r' hq1
        obtain ⟨n2, hn2⟩ := horig e.1 e.2 hq2
        have heq : q = e.1 := hcons q r'.content_hash n1 e.1 e.2.content_hash n2
          (List.mem_append_left _ hn1) (List.mem_append_left _ hn2)
          hche.symm
        rw [heq, hq2] at hq1
        obtain rfl := Option.some.inj hq1
        exact hkeep hexp

theorem dedupBase_fold (ops : List DedupOp) :
    ∀ t : DeduplicationTracker,
      (t.by_id.map Prod.fst).Nodup → (t.by_hash.map Prod.fst).Nodup →
      hashIndexSound t →
      ((ops.foldl DedupOp.apply t).by_id.map Prod.fst).Nodup ∧
      ((ops.foldl DedupOp.apply t).by_hash.map Prod.fst).Nodup ∧
      hashIndexSound (ops.foldl DedupOp.apply t) := by
  induction ops with
  | nil => exact fun t h1 h2 h3 => ⟨h1, h2, h3⟩
  | cons op ops ih =>
      intro t h1 h2 h3
      obtain ⟨g1, g2, g3⟩ := dedupBase_step t op h1 h2 h3
      rw [List.foldl_cons]
      exact ih (op.apply t) g1 g2 g3

theorem dedupFull_fold (ops : List DedupOp) :
    ∀ (pre : List DedupOp) (t : DeduplicationTracker),
      consistentFingerprints (pre ++ ops) →
      (t.by_id.map Prod.fst).Nodup → (t.by_hash.map Prod.fst).Nodup →
      hashIndexSound t → originMark pre t → idIndexCovered t →
      originMark (pre ++ ops) (ops.foldl DedupOp.apply t) ∧
      idIndexCovered (ops.foldl DedupOp.apply t) := by
  induction ops with
  | nil =>
      intro pre t hc h1 h2 h3 h4 h5
      rw [List.append_nil]
      exact ⟨h4, h5⟩
  | cons op ops ih =>
      intro pre t hc h1 h2 h3 h4 h5
      have hc1 : consistentFingerprints (pre ++ [op]) := by
        refine consistentFingerprints_mono ?_ hc
        intro x hx
        simp only [List.mem_append, List.mem_singleton, List.mem_cons] at hx ⊢
        tauto
      obtain ⟨g4, g5⟩ := dedupFull_step pre op t hc1 h1 h2 h3 h4 h5
      obtain ⟨g1, g2, g3⟩ := dedupBase_step t op h1 h2 h3
      have hc2 : consistentFingerprints ((pre ++ [op]) ++ ops) := by
        rw [List.append_assoc]
        exact hc
      have hrec := ih (pre ++ [op]) (op.apply t) hc2 g1 g2 g3 g4 g5
      rw [List.foldl_cons]
      refine ⟨?_, hrec.2⟩
      have hmono : ∀ x, x ∈ (pre ++ [op]) ++ ops → x ∈ pre ++ op :: ops := by
        intro x hx
        simp only [List.mem_append, List.mem_singleton, List.mem_cons] at hx ⊢
        tauto
      intro q r hq
      obtain ⟨n', hn'⟩ := hrec.1 q r hq
      exact ⟨n', hmono _ hn'⟩

/-- C1 (amended): for every operation sequence from the empty tracker,
every record reachable from the fingerprint index is also stored in the
identity index (under the id the fingerprint maps to, with that very
fingerprint); and provided no two `markSeen` operations of the sequence
pair the same fingerprint with different identities, every stored
record is also reachable from the fingerprint index via its stored
content fingerprint. -/
theorem C1_index_mutual_consistency (ttl : ℚ) (ops : List DedupOp) :
    hashIndexSound (runDedup ttl ops)
    ∧ (consistentFingerprints ops → idIndexCovered (runDedup ttl ops)) := by
  have hempty_sound : hashIndexSound (emptyTracker ttl) := by
    intro h p hp
    simp [dictGet, emptyTracker] at hp
  constructor
  · exact (dedupBase_fold ops (emptyTracker ttl)
      (by simp [emptyTracker]) (by simp [emptyTracker]) hempty_sound).2.2
  · intro hc
    have hfull := dedupFull_fold ops [] (emptyTracker ttl)
      (by simpa using hc)
      (by simp [emptyTracker]) (by simp [emptyTracker]) hempty_sound
      (by intro p r hp; simp [dictGet, emptyTracker] at hp)
      (by intro p r hp; simp [dictGet, emptyTracker] at hp)
    exact hfull.2

/-- C1 counterexample: marking two different identities with the same
fingerprint leaves the first record unreachable from the fingerprint
index (the fingerprint index now maps the shared fingerprint to the
second identity), so the claimed invariant fails for this operation
sequence. -/
theorem C1_counterexample :
    ¬ idIndexCovered (runDedup 90
      [DedupOp.markSeen "p1" "h1" 0, DedupOp.markSeen "p2" "h1" 1]) := by
  intro hcov
  have h1 : dictGet "p1" (runDedup 90
      [DedupOp.markSeen "p1" "h1" 0, DedupOp.markSeen "p2" "h1" 1]).by_id =
      some { post_id := "p1", content_hash := "h1", first_seen_at := 0,
             last_seen_at := 0, seen_count := 1 } := by rfl
  have h2 : dictGet "h1" (runDedup 90
      [DedupOp.markSeen "p1" "h1" 0, DedupOp.markSeen "p2" "h1" 1]).by_hash =
      some "p1" := hcov "p1" _ h1
  have h3 : dictGet "h1" (runDedup 90
      [DedupOp.markSeen "p1" "h1" 0, DedupOp.markSeen "p2" "h1" 1]).by_hash =
      some "p2" := by rfl
  have h4 : some "p2" = some "p1" := h3.symm.trans h2
  exact absurd (Option.some.inj h4) (by decide)

/-- C1 witness: a concrete sequence marking two identities with two
distinct fingerprints is consistent, and the theorem yields both index
directions for it. -/
theorem C1_witness :
    consistentFingerprints
      [DedupOp.markSeen "p1" "h1" 0, DedupOp.markSeen "p2" "h2" 1]
    ∧ hashIndexSound (runDedup 90
        [DedupOp.markSeen "p1" "h1" 0, DedupOp.markSeen "p2" "h2" 1])
    ∧ idIndexCovered (runDedup 90
        [DedupOp.markSeen "p1" "h1" 0, DedupOp.markSeen "p2" "h2" 1]) := by
  have hc : consistentFingerprints
      [DedupOp.markSeen "p1" "h1" 0, DedupOp.markSeen "p2" "h2" 1] := by
    intro p h n p2 h2 n2 hm1 hm2 hh
    simp only [List.mem_cons, List.not_mem_nil, or_false] at hm1 hm2
    rcases hm1 with hm1 | hm1 <;> rcases hm2 with hm2 | hm2 <;>
      injection hm1 with a1 b1 c1 <;> injection hm2 with a2 b2 c2 <;>
      subst a1 <;> subst b1 <;> subst a2 <;> subst b2
    · rfl
    · exact absurd hh (by decide)
    · exact absurd hh (by decide)
    · rfl
  exact ⟨hc, (C1_index_mutual_consistency 90 _).1,
    (C1_index_mutual_consistency 90 _).2 hc⟩

/-- C9: `mark_seen` on an already-present identity leaves the
fingerprint index unchanged, updates only that record's last-seen time
and occurrence count (keeping its stored content fingerprint), leaves
every other identity's record untouched, and a fingerprint supplied for
the already-seen identity is never recorded, so `has_hash` on a
previously unseen fingerprint stays false. -/
theorem C9_mark_seen_frame (t : DeduplicationTracker) (pid h : String)
    (now : ℚ) (r0 : SeenPost) (hp : dictGet pid t.by_id = some r0) :
    (t.mark_seen pid h now).by_hash = t.by_hash
    ∧ dictGet pid (t.mark_seen pid h now).by_id =
        some { r0 with last_seen_at := now, seen_count := r0.seen_count + 1 }
    ∧ (∀ q, q ≠ pid →
        dictGet q (t.mark_seen pid h now).by_id = dictGet q t.by_id)
    ∧ (t.has_hash h = false → (t.mark_seen pid h now).has_hash h = false) := by
  have hid : (t.mark_seen pid h now).by_id = t.by_id.map (fun e =>
      if e.1 = pid then (e.1, DeduplicationTracker.touchRecord now e.2)
      else e) := by
    unfold DeduplicationTracker.mark_seen
    rw [hp]
  have hhash : (t.mark_seen pid h now).by_hash = t.by_hash := by
    unfold DeduplicationTracker.mark_seen
    rw [hp]
  refine ⟨hhash, ?_, ?_, ?_⟩
  · rw [hid, dictGet_map_update, if_pos rfl, hp]
    rfl
  · intro q hq
    rw [hid, dictGet_map_update, if_neg hq]
  · intro hh
    unfold DeduplicationTracker.has_hash at hh ⊢
    rw [hhash]
    exact hh

/-- A one-record tracker used to instantiate the frame property of
`mark_seen`. -/
def sampleTracker : DeduplicationTracker :=
  { ttl := 90,
    by_id := [("p1", { post_id := "p1", content_hash := "h1",
                       first_seen_at := 0, last_seen_at := 0,
                       seen_count := 1 })],
    by_hash := [("h1", "p1")] }

/-- C9 witness: marking the already-seen identity `p1` with the new
fingerprint `h2` at instant 5 leaves the fingerprint index unchanged,
bumps the record, leaves the absent key `z` absent, and does not record
`h2`. -/
theorem C9_witness :
    (sampleTracker.mark_seen "p1" "h2" 5).by_hash = sampleTracker.by_hash
    ∧ dictGet "p1" (sampleTracker.mark_seen "p1" "h2" 5).by_id =
        some { post_id := "p1", content_hash := "h1", first_seen_at := 0,
               last_seen_at := 5, seen_count := 2 }
    ∧ dictGet "z" (sampleTracker.mark_seen "p1" "h2" 5).by_id =
        dictGet "z" sampleTracker.by_id
    ∧ (sampleTracker.mark_seen "p1" "h2" 5).has_hash "h2" = false := by
  obtain ⟨w1, w2, w3, w4⟩ := C9_mark_seen_frame sampleTracker "p1" "h2" 5
    { post_id := "p1", content_hash := "h1", first_seen_at := 0,
      last_seen_at := 0, seen_count := 1 } (by rfl)
  exact ⟨w1, w2, w3 "z" (by decide), w4 (by rfl)⟩

end Monitor
